import Mathlib

set_option maxRecDepth 6000

deriving instance DecidableEq for Except

/-!
Verification of the devrelay response-rewrite rule pipeline and
configuration resolution engine against its natural-language
specification.  The definitions below are a shallow embedding of
`src/devrelay/addons.py`, `src/devrelay/config.py` and
`src/devrelay/proxy.py`.  HTTP header maps are modelled as ordered
lists of name/value pairs with the case-insensitive first-match
semantics of mitmproxy's `Headers` multidict.
-/

/-- Case-insensitive key normalisation used by the mitmproxy header
multidict (`_kconv` lowercases the header name). -/
def headerKconv (s : String) : String := String.mk (s.data.map Char.toLower)

/-- One header field: name and value, casing preserved. -/
abbrev Header := String × String

/-- Membership test of the header multidict (`key in headers`):
true when some field name matches case-insensitively. -/
def headersContains (hs : List Header) (k : String) : Bool :=
  hs.any (fun p => headerKconv p.1 == headerKconv k)

/-- Deletion in the header multidict (`del headers[key]`): removes
every field whose name matches case-insensitively. -/
def headersDelete (hs : List Header) (k : String) : List Header :=
  hs.filter (fun p => headerKconv p.1 != headerKconv k)

/-- Assignment in the header multidict (`headers[key] = value`, i.e.
`set_all` with a single value): the first matching field keeps its
original name casing and receives the new value, every later matching
field is dropped, and when no field matches the pair is appended. -/
def headersSet (hs : List Header) (k v : String) : List Header :=
  match hs with
  | [] => [(k, v)]
  | p :: rest =>
    if headerKconv p.1 = headerKconv k then (p.1, v) :: headersDelete rest k
    else p :: headersSet rest k v

/-- First-match lookup in the header multidict (`headers[key]`). -/
def headersGet (hs : List Header) (k : String) : Option String :=
  (hs.find? (fun p => headerKconv p.1 == headerKconv k)).map (·.2)

/-- HTTP response as seen by the addons: status line, body bytes and
header fields. -/
structure Response where
  status_code : Nat
  reason : String
  content : List Nat
  headers : List Header
deriving DecidableEq

/-- One intercepted exchange: the request method and the optional
response. -/
structure HTTPFlow where
  method : String
  response : Option Response
deriving DecidableEq

/-- Headers removed by `CSPRemoverAddon`. -/
def csp_headers : List String :=
  ["content-security-policy", "content-security-policy-report-only"]

/-- Headers removed by `COEPRemoverAddon`. -/
def coep_headers : List String :=
  ["cross-origin-embedder-policy", "cross-origin-embedder-policy-report-only"]

/-- Headers removed by `COOPRemoverAddon`. -/
def coop_headers : List String :=
  ["cross-origin-opener-policy", "cross-origin-opener-policy-report-only"]

/-- The removal loop shared by the three remover addons:
`for header in names: if header in headers: del headers[header]`. -/
def removeAll (names : List String) (hs : List Header) : List Header :=
  names.foldl (fun acc h => if headersContains acc h then headersDelete acc h else acc) hs

/-- Embedding of `CSPRemoverAddon.response`. -/
def CSPRemoverAddon.response (flow : HTTPFlow) : HTTPFlow :=
  match flow.response with
  | none => flow
  | some resp =>
    { flow with response := some { resp with headers := removeAll csp_headers resp.headers } }

/-- Embedding of `COEPRemoverAddon.response`. -/
def COEPRemoverAddon.response (flow : HTTPFlow) : HTTPFlow :=
  match flow.response with
  | none => flow
  | some resp =>
    { flow with response := some { resp with headers := removeAll coep_headers resp.headers } }

/-- Embedding of `COOPRemoverAddon.response`. -/
def COOPRemoverAddon.response (flow : HTTPFlow) : HTTPFlow :=
  match flow.response with
  | none => flow
  | some resp =>
    { flow with response := some { resp with headers := removeAll coop_headers resp.headers } }

/-- The five permissive CORS headers set by the inserter and
preflight addons, in the order the source sets them. -/
def corsHeaderList : List Header :=
  [("Access-Control-Allow-Origin", "*"),
   ("Access-Control-Allow-Methods", "GET, POST, PUT, PATCH, DELETE, OPTIONS, HEAD"),
   ("Access-Control-Allow-Headers", "*"),
   ("Access-Control-Max-Age", "86400"),
   ("Access-Control-Expose-Headers", "*")]

/-- Lowercased names of the five CORS headers. -/
def corsLowerNames : List String := corsHeaderList.map (fun p => headerKconv p.1)

/-- Apply the five CORS header assignments in source order. -/
def setCorsHeaders (hs : List Header) : List Header :=
  corsHeaderList.foldl (fun acc p => headersSet acc p.1 p.2) hs

/-- Embedding of `CORSPreflightForWebhooksAddon.response`. -/
def CORSPreflightForWebhooksAddon.response (flow : HTTPFlow) : HTTPFlow :=
  match flow.response with
  | none => flow
  | some resp =>
    if flow.method ≠ "OPTIONS" then flow
    else if resp.status_code ≠ 405 then flow
    else
      { flow with response := some { status_code := 204, reason := "No Content",
                                     content := [], headers := setCorsHeaders resp.headers } }

/-- The mutation methods gating the two inserter addons. -/
def mutation_methods : List String := ["POST", "PUT", "PATCH", "DELETE"]

/-- Embedding of `CORPInserterAddon.response`. -/
def CORPInserterAddon.response (flow : HTTPFlow) : HTTPFlow :=
  match flow.response with
  | none => flow
  | some resp =>
    if flow.method ∉ mutation_methods then flow
    else if ¬ (100 ≤ resp.status_code ∧ resp.status_code < 300) then flow
    else
      { flow with response := some { resp with
          headers := headersSet resp.headers "Cross-Origin-Resource-Policy" "cross-origin" } }

/-- Embedding of `CORSInserterForWebhooksAddon.response`. -/
def CORSInserterForWebhooksAddon.response (flow : HTTPFlow) : HTTPFlow :=
  match flow.response with
  | none => flow
  | some resp =>
    if flow.method ∉ mutation_methods then flow
    else if ¬ (100 ≤ resp.status_code ∧ resp.status_code < 300) then flow
    else
      { flow with response := some { resp with headers := setCorsHeaders resp.headers } }

/-! Lemmas about the header multidict operations. -/

theorem headersContains_delete_self (hs : List Header) (k : String) :
    headersContains (headersDelete hs k) k = false := by
  simp only [headersContains, headersDelete, Bool.eq_false_iff, ne_eq, List.any_eq_true,
    List.mem_filter, bne_iff_ne, beq_iff_eq, not_exists, not_and]
  intro p hp
  exact hp.2

theorem headersContains_delete_of_false (hs : List Header) (k k2 : String)
    (h : headersContains hs k = false) :
    headersContains (headersDelete hs k2) k = false := by
  simp only [headersContains, Bool.eq_false_iff, ne_eq, List.any_eq_true, beq_iff_eq,
    not_exists, not_and] at h ⊢
  intro p hp
  exact h p (List.mem_filter.mp hp).1

theorem removeAll_pair_idem (a b : String) (hs : List Header) :
    removeAll [a, b] (removeAll [a, b] hs) = removeAll [a, b] hs := by
  have unfold2 : ∀ l : List Header, removeAll [a, b] l =
      (if headersContains (if headersContains l a then headersDelete l a else l) b then
        headersDelete (if headersContains l a then headersDelete l a else l) b
       else (if headersContains l a then headersDelete l a else l)) := by
    intro l; rfl
  set l1 := if headersContains hs a then headersDelete hs a else hs with hl1
  have hca : headersContains l1 a = false := by
    by_cases c : headersContains hs a = true
    · rw [hl1, if_pos c]; exact headersContains_delete_self hs a
    · rw [hl1, if_neg c]; exact Bool.eq_false_iff.mpr c
  set l2 := if headersContains l1 b then headersDelete l1 b else l1 with hl2
  have hca2 : headersContains l2 a = false := by
    by_cases c : headersContains l1 b = true
    · rw [hl2, if_pos c]; exact headersContains_delete_of_false l1 a b hca
    · rw [hl2, if_neg c]; exact hca
  have hcb2 : headersContains l2 b = false := by
    by_cases c : headersContains l1 b = true
    · rw [hl2, if_pos c]; exact headersContains_delete_self l1 b
    · rw [hl2, if_neg c]; exact Bool.eq_false_iff.mpr c
  have e1 : (if headersContains l2 a then headersDelete l2 a else l2) = l2 :=
    if_neg (by rw [hca2]; exact Bool.false_ne_true)
  have e2 : removeAll [a, b] l2 = l2 := by
    rw [unfold2 l2, e1, if_neg (by rw [hcb2]; exact Bool.false_ne_true)]
  calc removeAll [a, b] (removeAll [a, b] hs)
      = removeAll [a, b] l2 := by rw [unfold2 hs, ← hl1, ← hl2]
    _ = l2 := e2
    _ = removeAll [a, b] hs := by rw [unfold2 hs, ← hl1, ← hl2]

/-- C7: for every exchange, applying any of the three removal rules
(CSP-remover, COEP-remover, COOP-remover) twice yields the same
exchange as applying it once; the second application finds no matching
header (names matched case-insensitively) and leaves the exchange
unchanged. -/
theorem removal_rules_idempotent (flow : HTTPFlow) :
    CSPRemoverAddon.response (CSPRemoverAddon.response flow) = CSPRemoverAddon.response flow ∧
    COEPRemoverAddon.response (COEPRemoverAddon.response flow) = COEPRemoverAddon.response flow ∧
    COOPRemoverAddon.response (COOPRemoverAddon.response flow) = COOPRemoverAddon.response flow := by
  refine ⟨?_, ?_, ?_⟩ <;>
    cases hr : flow.response with
  | none =>
      simp [CSPRemoverAddon.response, COEPRemoverAddon.response, COOPRemoverAddon.response, hr]
  | some resp =>
      simp [CSPRemoverAddon.response, COEPRemoverAddon.response, COOPRemoverAddon.response, hr,
        csp_headers, coep_headers, coop_headers, removeAll_pair_idem]

/-- C8: for every exchange that has no response, each of the six
rules is a no-op: the exchange after the call equals the exchange
before the call. -/
theorem rules_noop_without_response (flow : HTTPFlow) (h : flow.response = none) :
    CSPRemoverAddon.response flow = flow ∧
    COEPRemoverAddon.response flow = flow ∧
    COOPRemoverAddon.response flow = flow ∧
    CORPInserterAddon.response flow = flow ∧
    CORSInserterForWebhooksAddon.response flow = flow ∧
    CORSPreflightForWebhooksAddon.response flow = flow := by
  refine ⟨?_, ?_, ?_, ?_, ?_, ?_⟩ <;>
    simp [CSPRemoverAddon.response, COEPRemoverAddon.response, COOPRemoverAddon.response,
      CORPInserterAddon.response, CORSInserterForWebhooksAddon.response,
      CORSPreflightForWebhooksAddon.response, h]

/-- A concrete exchange without a response. -/
def noRespFlow : HTTPFlow := { method := "GET", response := none }

/-- Witness for `rules_noop_without_response` at a concrete exchange. -/
theorem rules_noop_without_response_witness :
    CSPRemoverAddon.response noRespFlow = noRespFlow ∧
    COEPRemoverAddon.response noRespFlow = noRespFlow ∧
    COOPRemoverAddon.response noRespFlow = noRespFlow ∧
    CORPInserterAddon.response noRespFlow = noRespFlow ∧
    CORSInserterForWebhooksAddon.response noRespFlow = noRespFlow ∧
    CORSPreflightForWebhooksAddon.response noRespFlow = noRespFlow :=
  rules_noop_without_response noRespFlow rfl

theorem headersGet_delete_ne (hs : List Header) (k k2 : String)
    (h : headerKconv k2 ≠ headerKconv k) :
    headersGet (headersDelete hs k) k2 = headersGet hs k2 := by
  induction hs with
  | nil => rfl
  | cons p rest ih =>
    by_cases c : headerKconv p.1 = headerKconv k
    · have hne : (headerKconv p.1 == headerKconv k2) = false := by
        rw [beq_eq_false_iff_ne]
        intro e
        exact h (e.symm.trans c)
      simp only [headersDelete, List.filter] at *
      rw [show (headerKconv p.1 != headerKconv k) = false by simp [c]]
      rw [ih]
      simp only [headersGet, List.find?, hne]
    · simp only [headersDelete, List.filter] at *
      rw [show (headerKconv p.1 != headerKconv k) = true by simp [c]]
      by_cases c2 : headerKconv p.1 = headerKconv k2
      · simp only [headersGet, List.find?, show (headerKconv p.1 == headerKconv k2) = true by
          simp [c2]]
      · simp only [headersGet, List.find?, show (headerKconv p.1 == headerKconv k2) = false by
          simp [c2]]
        exact ih

theorem headersGet_set_self (hs : List Header) (k v k2 : String)
    (h : headerKconv k2 = headerKconv k) :
    headersGet (headersSet hs k v) k2 = some v := by
  induction hs with
  | nil =>
    simp only [headersSet, headersGet, List.find?,
      show (headerKconv k == headerKconv k2) = true by simp [h]]
    rfl
  | cons p rest ih =>
    by_cases c : headerKconv p.1 = headerKconv k
    · simp only [headersSet, if_pos c, headersGet, List.find?,
        show (headerKconv p.1 == headerKconv k2) = true by simp [c.trans h.symm]]
      rfl
    · simp only [headersSet, if_neg c, headersGet, List.find?,
        show (headerKconv p.1 == headerKconv k2) = false by
          simp only [beq_eq_false_iff_ne, ne_eq]
          intro e
          exact c (e.trans h)]
      exact ih

theorem headersGet_set_ne (hs : List Header) (k v k2 : String)
    (h : headerKconv k2 ≠ headerKconv k) :
    headersGet (headersSet hs k v) k2 = headersGet hs k2 := by
  induction hs with
  | nil =>
    simp only [headersSet, headersGet, List.find?,
      show (headerKconv k == headerKconv k2) = false by
        simp only [beq_eq_false_iff_ne, ne_eq]
        exact fun e => h e.symm]
  | cons p rest ih =>
    by_cases c : headerKconv p.1 = headerKconv k
    · have hne : (headerKconv p.1 == headerKconv k2) = false := by
        simp only [beq_eq_false_iff_ne, ne_eq]
        intro e
        exact h (e.symm.trans c)
      simp only [headersSet, if_pos c, headersGet, List.find?, hne]
      rw [show ((headersDelete rest k).find? fun p => headerKconv p.1 == headerKconv k2).map
            Prod.snd = headersGet (headersDelete rest k) k2 from rfl]
      rw [headersGet_delete_ne rest k k2 h]
      rfl
    · by_cases c2 : headerKconv p.1 = headerKconv k2
      · simp only [headersSet, if_neg c, headersGet, List.find?,
          show (headerKconv p.1 == headerKconv k2) = true by simp [c2]]
      · simp only [headersSet, if_neg c, headersGet, List.find?,
          show (headerKconv p.1 == headerKconv k2) = false by simp [c2]]
        exact ih

theorem headersSet_append_of_not_contains (hs : List Header) (k v : String)
    (h : headersContains hs k = false) :
    headersSet hs k v = hs ++ [(k, v)] := by
  induction hs with
  | nil => rfl
  | cons p rest ih =>
    simp only [headersContains, List.any_cons, Bool.or_eq_false_iff, beq_eq_false_iff_ne,
      ne_eq] at h
    simp only [headersSet, if_neg h.1, List.cons_append]
    rw [ih]
    simp only [headersContains, h.2]

theorem headersContains_append_single (hs : List Header) (k2 v k : String) :
    headersContains (hs ++ [(k2, v)]) k =
      (headersContains hs k || (headerKconv k2 == headerKconv k)) := by
  simp [headersContains, List.any_append]

theorem get_foldl_set_not_mem (qs : List Header) (hs : List Header) (k : String)
    (h : ∀ q ∈ qs, headerKconv k ≠ headerKconv q.1) :
    headersGet (qs.foldl (fun acc p => headersSet acc p.1 p.2) hs) k = headersGet hs k := by
  induction qs generalizing hs with
  | nil => rfl
  | cons q rest ih =>
    rw [List.foldl_cons, ih (headersSet hs q.1 q.2)
      (fun q2 hq2 => h q2 (List.mem_cons_of_mem q hq2))]
    exact headersGet_set_ne hs q.1 q.2 k (h q (List.mem_cons_self q rest))

theorem get_foldl_set_mem (ps : List Header) (hs : List Header) (p : Header)
    (hp : p ∈ ps) (hnodup : (ps.map (fun q => headerKconv q.1)).Nodup) :
    headersGet (ps.foldl (fun acc q => headersSet acc q.1 q.2) hs) p.1 = some p.2 := by
  induction ps generalizing hs with
  | nil => exact absurd hp (List.not_mem_nil p)
  | cons q rest ih =>
    rcases List.mem_cons.mp hp with he | hm
    · subst he
      rw [List.foldl_cons, get_foldl_set_not_mem rest (headersSet hs p.1 p.2) p.1
        (fun q2 hq2 => by
          simp only [List.map_cons, List.nodup_cons] at hnodup
          intro e
          exact hnodup.1 (e ▸ List.mem_map_of_mem (fun q => headerKconv q.1) hq2))]
      exact headersGet_set_self hs p.1 p.2 p.1 rfl
    · rw [List.foldl_cons]
      exact ih (headersSet hs q.1 q.2) hm
        (by simp only [List.map_cons, List.nodup_cons] at hnodup; exact hnodup.2)

theorem foldl_set_append (ps : List Header) (hs : List Header)
    (hdisj : ∀ p ∈ ps, headersContains hs p.1 = false)
    (hnodup : (ps.map (fun q => headerKconv q.1)).Nodup) :
    ps.foldl (fun acc q => headersSet acc q.1 q.2) hs = hs ++ ps := by
  induction ps generalizing hs with
  | nil => simp
  | cons q rest ih =>
    rw [List.foldl_cons,
      headersSet_append_of_not_contains hs q.1 q.2 (hdisj q (List.mem_cons_self q rest))]
    rw [ih (hs ++ [(q.1, q.2)]) (fun p hp => by
      rw [headersContains_append_single]
      rw [hdisj p (List.mem_cons_of_mem q hp)]
      simp only [Bool.false_or, beq_eq_false_iff_ne, ne_eq]
      simp only [List.map_cons, List.nodup_cons] at hnodup
      intro e
      exact hnodup.1 (e ▸ List.mem_map_of_mem (fun r => headerKconv r.1) hp))]
    · simp
    · simp only [List.map_cons, List.nodup_cons] at hnodup
      exact hnodup.2

/-- C2: for every exchange with a response, if the request method is a
mutation method (POST, PUT, PATCH, DELETE) and the status code lies in
[100,300), the CORP-inserter sets Cross-Origin-Resource-Policy to
cross-origin (first-match lookup returns it, overwriting any previous
value) and the CORS-inserter sets its five fixed CORS headers, in both
cases leaving every other header unchanged; for any other method or
any status outside [100,300), both rules leave the exchange unchanged. -/
theorem inserter_rules_gating (flow : HTTPFlow) (resp : Response)
    (h : flow.response = some resp) :
    ((flow.method ∈ mutation_methods ∧ 100 ≤ resp.status_code ∧ resp.status_code < 300) →
      (∃ r1, (CORPInserterAddon.response flow).response = some r1 ∧
        headersGet r1.headers "Cross-Origin-Resource-Policy" = some "cross-origin" ∧
        (∀ k, headerKconv k ≠ headerKconv "Cross-Origin-Resource-Policy" →
          headersGet r1.headers k = headersGet resp.headers k) ∧
        r1.status_code = resp.status_code ∧ r1.content = resp.content) ∧
      (∃ r2, (CORSInserterForWebhooksAddon.response flow).response = some r2 ∧
        (∀ p ∈ corsHeaderList, headersGet r2.headers p.1 = some p.2) ∧
        (∀ k, headerKconv k ∉ corsLowerNames →
          headersGet r2.headers k = headersGet resp.headers k) ∧
        r2.status_code = resp.status_code ∧ r2.content = resp.content)) ∧
    ((flow.method ∉ mutation_methods ∨ ¬ (100 ≤ resp.status_code ∧ resp.status_code < 300)) →
      CORPInserterAddon.response flow = flow ∧ CORSInserterForWebhooksAddon.response flow = flow) := by
  constructor
  · rintro ⟨hm, hst1, hst2⟩
    constructor
    · refine ⟨{ resp with
          headers := headersSet resp.headers "Cross-Origin-Resource-Policy" "cross-origin" },
        ?_, ?_, ?_, rfl, rfl⟩
      · simp [CORPInserterAddon.response, h, hm, hst1, hst2]
      · exact headersGet_set_self resp.headers _ _ _ rfl
      · intro k hk
        exact headersGet_set_ne resp.headers _ _ k hk
    · refine ⟨{ resp with headers := setCorsHeaders resp.headers }, ?_, ?_, ?_, rfl, rfl⟩
      · simp [CORSInserterForWebhooksAddon.response, h, hm, hst1, hst2]
      · intro p hp
        exact get_foldl_set_mem corsHeaderList resp.headers p hp (by decide)
      · intro k hk
        exact get_foldl_set_not_mem corsHeaderList resp.headers k
          (fun q hq e => hk (by rw [e]; exact List.mem_map_of_mem _ hq))
  · intro hneg
    constructor <;>
      · rcases hneg with hm | hst
        · simp [CORPInserterAddon.response, CORSInserterForWebhooksAddon.response, h, hm]
        · by_cases hm2 : flow.method ∈ mutation_methods
          · simp [CORPInserterAddon.response, CORSInserterForWebhooksAddon.response, h, hm2, hst]
          · simp [CORPInserterAddon.response, CORSInserterForWebhooksAddon.response, h, hm2]

/-- A concrete successful POST response used as the C2 witness input. -/
def c2Resp : Response :=
  { status_code := 201, reason := "Created", content := [], headers := [("X-Test", "1")] }

/-- A concrete POST exchange used as the C2 witness input. -/
def c2Flow : HTTPFlow := { method := "POST", response := some c2Resp }

/-- Witness for `inserter_rules_gating` at a concrete POST/201 exchange. -/
theorem inserter_rules_gating_witness :
    (∃ r1, (CORPInserterAddon.response c2Flow).response = some r1 ∧
      headersGet r1.headers "Cross-Origin-Resource-Policy" = some "cross-origin" ∧
      (∀ k, headerKconv k ≠ headerKconv "Cross-Origin-Resource-Policy" →
        headersGet r1.headers k = headersGet c2Resp.headers k) ∧
      r1.status_code = c2Resp.status_code ∧ r1.content = c2Resp.content) ∧
    (∃ r2, (CORSInserterForWebhooksAddon.response c2Flow).response = some r2 ∧
      (∀ p ∈ corsHeaderList, headersGet r2.headers p.1 = some p.2) ∧
      (∀ k, headerKconv k ∉ corsLowerNames →
        headersGet r2.headers k = headersGet c2Resp.headers k) ∧
      r2.status_code = c2Resp.status_code ∧ r2.content = c2Resp.content) :=
  (inserter_rules_gating c2Flow c2Resp rfl).1 ⟨by decide, by decide, by decide⟩

/-- ASCII string rendered as its byte list. -/
def strBytes (s : String) : List Nat := s.data.map (fun c => c.toNat)

/-- C1 (amended): for every exchange whose request method is OPTIONS and
whose response status is 405, the preflight rewriter sets status 204,
reason "No Content", empty body, and sets the five CORS headers to
their exact literal values while leaving every header with a
non-CORS name unchanged; the five CORS headers are exactly the headers
present when the original response carried no CORS-named header and no
other header.  Every other exchange is left unchanged. -/
theorem preflight_rewrite (flow : HTTPFlow) (resp : Response)
    (h : flow.response = some resp) :
    ((flow.method = "OPTIONS" ∧ resp.status_code = 405) →
      ∃ r, (CORSPreflightForWebhooksAddon.response flow).response = some r ∧
        r.status_code = 204 ∧ r.reason = "No Content" ∧ r.content = [] ∧
        (∀ p ∈ corsHeaderList, headersGet r.headers p.1 = some p.2) ∧
        (∀ k, headerKconv k ∉ corsLowerNames →
          headersGet r.headers k = headersGet resp.headers k) ∧
        ((∀ p ∈ resp.headers, headerKconv p.1 ∉ corsLowerNames) →
          r.headers = resp.headers ++ corsHeaderList)) ∧
    ((flow.method ≠ "OPTIONS" ∨ resp.status_code ≠ 405) →
      CORSPreflightForWebhooksAddon.response flow = flow) := by
  constructor
  · rintro ⟨hm, hs⟩
    refine ⟨Response.mk 204 "No Content" [] (setCorsHeaders resp.headers),
      ?_, rfl, rfl, rfl, ?_, ?_, ?_⟩
    · simp [CORSPreflightForWebhooksAddon.response, h, hm, hs]
    · intro p hp
      exact get_foldl_set_mem corsHeaderList resp.headers p hp (by decide)
    · intro k hk
      exact get_foldl_set_not_mem corsHeaderList resp.headers k
        (fun q hq e => hk (by rw [e]; exact List.mem_map_of_mem _ hq))
    · intro hclean
      refine foldl_set_append corsHeaderList resp.headers ?_ (by decide)
      intro p hp
      rw [Bool.eq_false_iff]
      intro hc
      rw [headersContains, List.any_eq_true] at hc
      obtain ⟨q, hq, he⟩ := hc
      exact hclean q hq ((beq_iff_eq.mp he) ▸ List.mem_map_of_mem _ hp)
  · intro hneg
    rcases hneg with hm | hs
    · simp [CORSPreflightForWebhooksAddon.response, h, hm]
    · by_cases hm2 : flow.method = "OPTIONS"
      · simp [CORSPreflightForWebhooksAddon.response, h, hm2, hs]
      · simp [CORSPreflightForWebhooksAddon.response, h, hm2]

/-- A concrete OPTIONS/405 exchange that already carries an Allow
header, as produced by a server rejecting the preflight. -/
def c1Flow : HTTPFlow :=
  { method := "OPTIONS",
    response := some { status_code := 405, reason := "Method Not Allowed",
                       content := strBytes "Method Not Allowed",
                       headers := [("Allow", "GET")] } }

/-- The response produced by the preflight rewriter on `c1Flow`. -/
def c1Result : Response :=
  { status_code := 204, reason := "No Content", content := [],
    headers := ("Allow", "GET") :: corsHeaderList }

/-- C1 counterexample: on an OPTIONS/405 response that already has an
Allow header, the rewriter keeps that header, so the rewritten
response does not contain exactly the five CORS headers: a sixth
header name is present. -/
theorem preflight_exactly_five_counterexample :
    (CORSPreflightForWebhooksAddon.response c1Flow).response = some c1Result ∧
    ¬ (∀ p ∈ c1Result.headers, p.1 ∈ corsHeaderList.map Prod.fst) := by
  decide

/-- A concrete OPTIONS/405 exchange without pre-existing headers. -/
def c1CleanResp : Response :=
  { status_code := 405, reason := "Method Not Allowed",
    content := strBytes "Method Not Allowed", headers := [] }

/-- The `c1CleanResp` exchange. -/
def c1CleanFlow : HTTPFlow := { method := "OPTIONS", response := some c1CleanResp }

/-- Witness for `preflight_rewrite` at a concrete OPTIONS/405 exchange. -/
theorem preflight_rewrite_witness :
    ∃ r, (CORSPreflightForWebhooksAddon.response c1CleanFlow).response = some r ∧
      r.status_code = 204 ∧ r.reason = "No Content" ∧ r.content = [] ∧
      (∀ p ∈ corsHeaderList, headersGet r.headers p.1 = some p.2) ∧
      (∀ k, headerKconv k ∉ corsLowerNames →
        headersGet r.headers k = headersGet c1CleanResp.headers k) ∧
      ((∀ p ∈ c1CleanResp.headers, headerKconv p.1 ∉ corsLowerNames) →
        r.headers = c1CleanResp.headers ++ corsHeaderList) :=
  (preflight_rewrite c1CleanFlow c1CleanResp rfl).1 ⟨rfl, rfl⟩

/-! Embedding of the addon name registry (`ADDON_NAME_MAP`,
`validate_addon_names`) together with the string-similarity machinery
of difflib used for suggestions. -/

/-- A single-quote character, used when quoting names in messages. -/
def sglq : String := String.singleton (Char.ofNat 39)

/-- Uppercase normalisation (`name.upper()` on ASCII names). -/
def pyUpper (s : String) : String := String.mk (s.data.map Char.toUpper)

/-- The addon name mapping, in source (insertion) order: short names
first, then full class names, keys normalised to uppercase. -/
def ADDON_NAME_MAP : List (String × String) :=
  [("CSP", "CSPRemoverAddon"),
   ("COEP", "COEPRemoverAddon"),
   ("COOP", "COOPRemoverAddon"),
   ("CORP", "CORPInserterAddon"),
   ("CORSINSERTER", "CORSInserterForWebhooksAddon"),
   ("CORSPREFLIGHT", "CORSPreflightForWebhooksAddon"),
   ("CSPREMOVERADDON", "CSPRemoverAddon"),
   ("COEPREMOVERADDON", "COEPRemoverAddon"),
   ("COOPREMOVERADDON", "COOPRemoverAddon"),
   ("CORPINSERTERADDON", "CORPInserterAddon"),
   ("CORSINSERTERFORWEBHOOKSADDON", "CORSInserterForWebhooksAddon"),
   ("CORSPREFLIGHTFORWEBHOOKSADDON", "CORSPreflightForWebhooksAddon")]

/-- All valid addon class names, in source order. -/
def ALL_ADDON_NAMES : List String :=
  ["CSPRemoverAddon",
   "COEPRemoverAddon",
   "COOPRemoverAddon",
   "CORPInserterAddon",
   "CORSInserterForWebhooksAddon",
   "CORSPreflightForWebhooksAddon"]

/-- Dictionary lookup `ADDON_NAME_MAP[key]` as an option. -/
def lookupAddon (k : String) : Option String :=
  (ADDON_NAME_MAP.find? (fun p => p.1 == k)).map (·.2)

/-- Length of the common run of equal characters at the heads of two
character lists. -/
def commonRunLen : List Char → List Char → Nat
  | a :: as, b :: bs => if a = b then commonRunLen as bs + 1 else 0
  | _, _ => 0

/-- Size of the matching run of characters starting at positions i and
j, clamped to the region bounds, as used by difflib
`find_longest_match` inside the region [alo,ahi) x [blo,bhi). -/
def boundedRunLen (a b : List Char) (i j ahi bhi : Nat) : Nat :=
  min (commonRunLen (a.drop i) (b.drop j)) (min (ahi - i) (bhi - j))

/-- difflib `SequenceMatcher.find_longest_match` with no junk: the
longest matching block inside the region, earliest start in a and then
earliest start in b among maximal blocks; (alo, blo, 0) when there is
no match. -/
def findLongestMatch (a b : List Char) (alo ahi blo bhi : Nat) : Nat × Nat × Nat :=
  ((List.range ahi).drop alo).foldl (fun best i =>
    ((List.range bhi).drop blo).foldl (fun best2 j =>
      let k := boundedRunLen a b i j ahi bhi
      if best2.2.2 < k then (i, j, k) else best2) best) (alo, blo, 0)

/-- Total size of all matching blocks of difflib
`SequenceMatcher.get_matching_blocks` on the given region: recursively
take the longest match and recurse on the regions to its left and
right.  The fuel argument dominates the recursion depth, which is
bounded by the size of the region. -/
def matchingTotal : Nat → List Char → List Char → Nat → Nat → Nat → Nat → Nat
  | 0, _, _, _, _, _, _ => 0
  | fuel + 1, a, b, alo, ahi, blo, bhi =>
    let m := findLongestMatch a b alo ahi blo bhi
    if m.2.2 = 0 then 0
    else m.2.2
      + (if alo < m.1 ∧ blo < m.2.1 then matchingTotal fuel a b alo m.1 blo m.2.1 else 0)
      + (if m.1 + m.2.2 < ahi ∧ m.2.1 + m.2.2 < bhi then
          matchingTotal fuel a b (m.1 + m.2.2) ahi (m.2.1 + m.2.2) bhi else 0)

/-- The matched-character count M appearing in difflib
`SequenceMatcher(None, x, w).ratio() = 2 * M / T`. -/
def difflibM (x w : String) : Nat :=
  matchingTotal (x.data.length + w.data.length + 1) x.data w.data 0 x.data.length 0 w.data.length

/-- The length total T appearing in difflib ratio. -/
def difflibT (x w : String) : Nat := x.data.length + w.data.length

/-- Whether the difflib ratio 2 * M / T reaches the `get_close_matches`
cutoff 0.6, expressed without division: 2 * M / T >= 3 / 5 iff
10 * M >= 3 * T. -/
def ratioGe06 (x w : String) : Bool := 3 * difflibT x w ≤ 10 * difflibM x w

/-- Lexicographic comparison of strings by code points, as Python
compares strings. -/
def pyStrLtAux : List Char → List Char → Bool
  | [], [] => false
  | [], _ :: _ => true
  | _ :: _, [] => false
  | c :: cs, d :: ds =>
    if c.toNat < d.toNat then true
    else if d.toNat < c.toNat then false
    else pyStrLtAux cs ds

/-- String comparison by code points. -/
def pyStrLt (s t : String) : Bool := pyStrLtAux s.data t.data

/-- Does candidate x beat candidate cur for word w under the
`heapq.nlargest` ordering on (ratio, string) pairs?  Ratios are
compared exactly by cross-multiplication. -/
def candBeats (w x cur : String) : Bool :=
  if difflibM cur w * difflibT x w < difflibM x w * difflibT cur w then true
  else if difflibM x w * difflibT cur w < difflibM cur w * difflibT x w then false
  else pyStrLt cur x

/-- Maximum of a candidate list under the `nlargest` ordering. -/
def chooseBest (w : String) : List String → Option String
  | [] => none
  | x :: xs =>
    match chooseBest w xs with
    | none => some x
    | some cur => if candBeats w x cur then some x else some cur

/-- difflib `get_close_matches(word, possibilities, n=1, cutoff=0.6)`:
the best candidate whose ratio reaches the cutoff, if any.  The
`real_quick_ratio` and `quick_ratio` prefilters of the source are
upper bounds of `ratio` and therefore do not change the result. -/
def getCloseMatches1 (word : String) (poss : List String) : Option String :=
  chooseBest word (poss.filter (fun x => ratioGe06 x word))

/-- The user-friendly name preferred in suggestions: the first map key
of length at most 15 mapping to the canonical name, else the canonical
name itself. -/
def userFriendly (canonical : String) : String :=
  match ADDON_NAME_MAP.find? (fun p => p.2 == canonical && decide (p.1.length ≤ 15)) with
  | some p => p.1
  | none => canonical

/-- The error message suggesting a close match. -/
def didYouMeanMsg (name friendly : String) : String :=
  "Unknown addon " ++ sglq ++ name ++ sglq ++ ". Did you mean " ++ sglq ++ friendly ++ sglq ++ "?"

/-- The error message listing all valid addon names. -/
def validAddonsMsg (name : String) : String :=
  "Unknown addon " ++ sglq ++ name ++ sglq ++
    ". Valid addons: CSP, COEP, COOP, CORP, CORSInserter, CORSPreflight"

/-- The `ValueError` message produced for an unknown addon name. -/
def unknownAddonMessage (name : String) : String :=
  match getCloseMatches1 (pyUpper name) (ADDON_NAME_MAP.map (·.1)) with
  | some m => didYouMeanMsg name (userFriendly ((lookupAddon m).getD m))
  | none => validAddonsMsg name

/-- Embedding of `validate_addon_names`: canonicalise every name,
failing with the suggestion message at the first unknown entry. -/
def validate_addon_names : List String → Except String (List String)
  | [] => .ok []
  | name :: rest =>
    match lookupAddon (pyUpper name) with
    | some canonical =>
      match validate_addon_names rest with
      | .ok v => .ok (canonical :: v)
      | .error e => .error e
    | none => .error (unknownAddonMessage name)

/-! Lemmas about the registry and the suggestion machinery. -/

theorem lookup_val_mem (k c : String) (h : lookupAddon k = some c) :
    c ∈ ALL_ADDON_NAMES := by
  rw [lookupAddon] at h
  obtain ⟨p, hp, hpc⟩ := Option.map_eq_some'.mp h
  have hmem := List.mem_of_find?_eq_some hp
  have hall : ∀ q ∈ ADDON_NAME_MAP, q.2 ∈ ALL_ADDON_NAMES := by decide
  exact hpc ▸ hall p hmem

theorem canonical_lookup_fixed : ∀ c ∈ ALL_ADDON_NAMES, lookupAddon (pyUpper c) = some c := by
  decide

theorem validate_ok_of_known (l : List String)
    (h : ∀ n ∈ l, (lookupAddon (pyUpper n)).isSome = true) :
    validate_addon_names l = .ok (l.map (fun n => (lookupAddon (pyUpper n)).getD "")) := by
  induction l with
  | nil => rfl
  | cons a t ih =>
    obtain ⟨c, hc⟩ := Option.isSome_iff_exists.mp (h a (List.mem_cons_self a t))
    simp only [validate_addon_names, hc,
      ih (fun n hn => h n (List.mem_cons_of_mem a hn)), List.map_cons]
    simp [hc]

theorem validate_mem_all (l r : List String) (h : validate_addon_names l = .ok r) :
    ∀ c ∈ r, c ∈ ALL_ADDON_NAMES := by
  induction l generalizing r with
  | nil =>
    simp only [validate_addon_names, Except.ok.injEq] at h
    subst h
    intro c hc
    exact absurd hc (List.not_mem_nil c)
  | cons a t ih =>
    simp only [validate_addon_names] at h
    cases hc : lookupAddon (pyUpper a) with
    | none => rw [hc] at h; cases h
    | some c =>
      rw [hc] at h
      cases hv : validate_addon_names t with
      | error e2 => rw [hv] at h; cases h
      | ok v =>
        rw [hv] at h
        cases h
        intro x hx
        rcases List.mem_cons.mp hx with rfl | hm
        · exact lookup_val_mem (pyUpper a) x hc
        · exact ih v hv x hm

theorem validate_map_fixed (s : List String)
    (hs : ∀ n ∈ s, (lookupAddon (pyUpper n)).getD "" = n) :
    s.map (fun n => (lookupAddon (pyUpper n)).getD "") = s := by
  induction s with
  | nil => rfl
  | cons a t ih =>
    simp only [List.map_cons, hs a (List.mem_cons_self a t),
      ih (fun n hn => hs n (List.mem_cons_of_mem a hn))]

theorem validate_idem (l r : List String) (h : validate_addon_names l = .ok r) :
    validate_addon_names r = .ok r := by
  have hmem := validate_mem_all l r h
  have hknown : ∀ n ∈ r, (lookupAddon (pyUpper n)).isSome = true := fun n hn => by
    rw [canonical_lookup_fixed n (hmem n hn)]; rfl
  rw [validate_ok_of_known r hknown,
    validate_map_fixed r (fun n hn => by rw [canonical_lookup_fixed n (hmem n hn)]; rfl)]

/-- C5: every sequence whose entries are (up to case) known short
aliases or canonical names resolves successfully, each entry mapped to
its canonical class name; the concrete round trip holds; and resolve
applied to its own output returns that output unchanged. -/
theorem resolve_canonicalization :
    (∀ l : List String, (∀ n ∈ l, (lookupAddon (pyUpper n)).isSome = true) →
      validate_addon_names l = .ok (l.map (fun n => (lookupAddon (pyUpper n)).getD ""))) ∧
    validate_addon_names ["CSP", "csp", "CSPRemoverAddon"] =
      .ok ["CSPRemoverAddon", "CSPRemoverAddon", "CSPRemoverAddon"] ∧
    (∀ l r : List String, validate_addon_names l = .ok r → validate_addon_names r = .ok r) :=
  ⟨validate_ok_of_known, by decide, validate_idem⟩

/-- Witness for `resolve_canonicalization` at concrete inputs. -/
theorem resolve_canonicalization_witness :
    validate_addon_names ["coep", "CORSPreflight"] =
      .ok (["coep", "CORSPreflight"].map (fun n => (lookupAddon (pyUpper n)).getD "")) ∧
    validate_addon_names ["CSPRemoverAddon"] = .ok ["CSPRemoverAddon"] :=
  ⟨resolve_canonicalization.1 ["coep", "CORSPreflight"] (by decide),
   resolve_canonicalization.2.2 ["csp"] ["CSPRemoverAddon"] (by decide)⟩

theorem chooseBest_ne_none (w x : String) (xs : List String) :
    chooseBest w (x :: xs) ≠ none := by
  cases hrec : chooseBest w xs with
  | none => simp [chooseBest, hrec]
  | some cur =>
    by_cases hb : candBeats w x cur = true
    · simp [chooseBest, hrec, hb]
    · simp [chooseBest, hrec, hb]

theorem chooseBest_mem (w : String) :
    ∀ (l : List String) (m : String), chooseBest w l = some m → m ∈ l := by
  intro l
  induction l with
  | nil => intro m h; cases h
  | cons x xs ih =>
    intro m h
    cases hrec : chooseBest w xs with
    | none =>
      simp only [chooseBest, hrec] at h
      cases h
      exact List.mem_cons_self _ _
    | some cur =>
      simp only [chooseBest, hrec] at h
      by_cases hb : candBeats w x cur = true
      · rw [if_pos hb] at h
        cases h
        exact List.mem_cons_self _ _
      · rw [if_neg hb] at h
        cases h
        exact List.mem_cons_of_mem _ (ih _ hrec)

theorem validate_err_first :
    ∀ (pre : List String) (e : String) (post : List String),
      (∀ n ∈ pre, (lookupAddon (pyUpper n)).isSome = true) →
      lookupAddon (pyUpper e) = none →
      validate_addon_names (pre ++ e :: post) = .error (unknownAddonMessage e) := by
  intro pre
  induction pre with
  | nil =>
    intro e post _ he
    simp only [List.nil_append, validate_addon_names, he]
  | cons a t ih =>
    intro e post hpre he
    obtain ⟨c, hc⟩ := Option.isSome_iff_exists.mp (hpre a (List.mem_cons_self a t))
    have ih2 : validate_addon_names (List.append t (e :: post)) =
        Except.error (unknownAddonMessage e) :=
      ih e post (fun n hn => hpre n (List.mem_cons_of_mem a hn)) he
    simp only [List.cons_append, validate_addon_names, hc, ih2]

/-- C4 (amended): a sequence containing an unrecognised identifier
fails at the first unrecognised entry; when some known alias reaches
the 0.6 similarity cutoff, the error message suggests the
user-friendly short alias of the rule the best-matching candidate
resolves to (which is the candidate itself whenever the candidate is a
short alias, as for resolve of CSQ, which names CSP); when no
candidate reaches the cutoff, the message enumerates all valid short
aliases. -/
theorem resolve_unknown_error (pre : List String) (e : String) (post : List String)
    (hpre : ∀ n ∈ pre, (lookupAddon (pyUpper n)).isSome = true)
    (he : lookupAddon (pyUpper e) = none) :
    validate_addon_names (pre ++ e :: post) = .error (unknownAddonMessage e) ∧
    ((∃ k ∈ ADDON_NAME_MAP.map (·.1), ratioGe06 k (pyUpper e) = true) →
      ∃ m, getCloseMatches1 (pyUpper e) (ADDON_NAME_MAP.map (·.1)) = some m ∧
        ratioGe06 m (pyUpper e) = true ∧
        unknownAddonMessage e = didYouMeanMsg e (userFriendly ((lookupAddon m).getD m))) ∧
    ((∀ k ∈ ADDON_NAME_MAP.map (·.1), ratioGe06 k (pyUpper e) = false) →
      unknownAddonMessage e = validAddonsMsg e) ∧
    validate_addon_names ["CSQ"] = .error (didYouMeanMsg "CSQ" "CSP") := by
  refine ⟨validate_err_first pre e post hpre he, ?_, ?_, by decide⟩
  · rintro ⟨k, hk, hr⟩
    have hfil : k ∈ (ADDON_NAME_MAP.map (·.1)).filter (fun x => ratioGe06 x (pyUpper e)) :=
      List.mem_filter.mpr ⟨hk, hr⟩
    cases hcb : chooseBest (pyUpper e)
        ((ADDON_NAME_MAP.map (·.1)).filter (fun x => ratioGe06 x (pyUpper e))) with
    | none =>
      cases hl : (ADDON_NAME_MAP.map (·.1)).filter (fun x => ratioGe06 x (pyUpper e)) with
      | nil => rw [hl] at hfil; exact absurd hfil (List.not_mem_nil k)
      | cons y ys => rw [hl] at hcb; exact absurd hcb (chooseBest_ne_none (pyUpper e) y ys)
    | some m =>
      have hg : getCloseMatches1 (pyUpper e) (ADDON_NAME_MAP.map (·.1)) = some m := hcb
      refine ⟨m, hg, ?_, ?_⟩
      · exact (List.mem_filter.mp (chooseBest_mem (pyUpper e) _ m hcb)).2
      · simp only [unknownAddonMessage, hg]
  · intro hall
    have hfil : (ADDON_NAME_MAP.map (·.1)).filter (fun x => ratioGe06 x (pyUpper e)) = [] :=
      List.filter_eq_nil_iff.mpr (fun a ha => by rw [hall a ha]; exact Bool.false_ne_true)
    have hg : getCloseMatches1 (pyUpper e) (ADDON_NAME_MAP.map (·.1)) = none := by
      show chooseBest (pyUpper e)
        ((ADDON_NAME_MAP.map (·.1)).filter (fun x => ratioGe06 x (pyUpper e))) = none
      rw [hfil]
      rfl
    simp only [unknownAddonMessage, hg]

/-- Witness for `resolve_unknown_error`: one known entry before the
typo CSQ; the suggestion branch is discharged at the candidate CSP and
the concrete message names CSP. -/
theorem resolve_unknown_error_witness :
    validate_addon_names (["CSP"] ++ "CSQ" :: []) = .error (unknownAddonMessage "CSQ") ∧
    (∃ m, getCloseMatches1 (pyUpper "CSQ") (ADDON_NAME_MAP.map (·.1)) = some m ∧
      ratioGe06 m (pyUpper "CSQ") = true ∧
      unknownAddonMessage "CSQ" = didYouMeanMsg "CSQ" (userFriendly ((lookupAddon m).getD m))) ∧
    validate_addon_names ["CSQ"] = .error (didYouMeanMsg "CSQ" "CSP") :=
  have h := resolve_unknown_error ["CSP"] "CSQ" [] (by decide) (by decide)
  ⟨h.1, h.2.1 ⟨"CSP", by decide, by decide⟩, h.2.2.2⟩

/-- C4 counterexample: for the unrecognised entry cspremov, the alias
CSPREMOVERADDON reaches the 0.6 cutoff and is the computed best
candidate, but the error message suggests CSP, which is not that
candidate and itself does not reach the cutoff. -/
theorem resolve_suggestion_counterexample :
    lookupAddon (pyUpper "cspremov") = none ∧
    ratioGe06 "CSPREMOVERADDON" (pyUpper "cspremov") = true ∧
    getCloseMatches1 (pyUpper "cspremov") (ADDON_NAME_MAP.map (·.1)) = some "CSPREMOVERADDON" ∧
    validate_addon_names ["cspremov"] = .error (didYouMeanMsg "cspremov" "CSP") ∧
    didYouMeanMsg "cspremov" "CSP" ≠ didYouMeanMsg "cspremov" "CSPREMOVERADDON" ∧
    ratioGe06 "CSP" (pyUpper "cspremov") = false := by
  refine ⟨by decide, by decide, by decide, by decide, by decide, by decide⟩

/-! Embedding of the configuration loader (`config.py`).  Python
values flowing through the loader are modelled by `PyVal`; list values
are lists of strings, which covers every value the loader accepts for
the disabled-addon field.  The YAML layer (ruamel.yaml round trip) is
modelled by `YamlDoc`: loading yields the key/value entries with the
comment lines attached in place, and dumping writes entries back in
order with comments preserved and newly added keys appended at the
end, which is the observable behaviour of the comment-preserving YAML
round trip the loader relies on. -/

inductive PyVal where
  | vstr (s : String)
  | vint (n : Int)
  | vpath (s : String)
  | vlist (l : List String)
  | vnone
deriving DecidableEq

/-- The configuration parameter types occurring in the schema. -/
inductive PType where
  | tstr
  | tint
  | tpath
  | tlist
deriving DecidableEq

/-- Definition of a configuration parameter (`Parameter` dataclass). -/
structure Parameter where
  name : String
  ptype : PType
  default : PyVal
  help : String
deriving DecidableEq

/-- Stand-in for `Path.home()`: the user home directory. -/
def pyHome : String := "~"

/-- The default certificate directory `Path.home() / ".mitmproxy"`. -/
def defaultCertdir : String := pyHome ++ "/.mitmproxy"

/-- The host parameter. -/
def pHost : Parameter := ⟨"host", .tstr, .vstr "127.0.0.1", "Host address to bind to"⟩

/-- The port parameter. -/
def pPort : Parameter := ⟨"port", .tint, .vint 8080, "Port to listen on"⟩

/-- The certificate directory parameter. -/
def pCertdir : Parameter := ⟨"certdir", .tpath, .vpath defaultCertdir, "Certificate directory"⟩

/-- The disabled addon list parameter. -/
def pDisabled : Parameter :=
  ⟨"disabled_addons", .tlist, .vlist [],
   "Comma-separated list of addons to disable (e.g., CSP,COEP)"⟩

/-- All parameters, in source order. -/
def parameters : List Parameter := [pHost, pPort, pCertdir, pDisabled]

/-- One line of the settings document: a comment (or other non-schema
formatting) or a key/value entry. -/
inductive YamlItem where
  | comment (text : String)
  | kv (key : String) (val : PyVal)
deriving DecidableEq

/-- The settings document. -/
abbrev YamlDoc := List YamlItem

/-- Does the document bind a key (`key in yaml_config`)? -/
def docHasKey (d : YamlDoc) (k : String) : Bool :=
  d.any (fun it => match it with | .kv key _ => key == k | .comment _ => false)

/-- First binding of a key in the document (`yaml_config[key]`). -/
def docLookup (d : YamlDoc) (k : String) : Option PyVal :=
  match d with
  | [] => none
  | .comment _ :: rest => docLookup rest k
  | .kv key v :: rest => if key = k then some v else docLookup rest k

/-- The YAML-serialised form of a parameter default: paths are written
as strings (`str(param.default) if isinstance(param.default, Path)`),
everything else as is. -/
def yamlDefaultOf (p : Parameter) : PyVal :=
  match p.default with
  | .vpath s => .vstr s
  | d => d

/-- The defaults document created when no settings file exists. -/
def defaultsDoc : YamlDoc := parameters.map (fun p => .kv p.name (yamlDefaultOf p))

/-- Embedding of `_load_yaml`: an absent file is created with the
defaults and those are returned; an existing file is loaded as is. -/
def load_yaml (file : Option YamlDoc) : YamlDoc :=
  match file with
  | none => defaultsDoc
  | some d => d

/-- One step of the backfill loop of `_update_yaml_file`: append the
serialised default when the key is missing. -/
def backfillStep (acc : YamlDoc) (p : Parameter) : YamlDoc :=
  if docHasKey acc p.name then acc else acc ++ [.kv p.name (yamlDefaultOf p)]

/-- Embedding of `_update_yaml_file`: every schema key missing from
the document is appended with its serialised default, and the document
is written back (comments and existing entries preserved in place). -/
def update_yaml_file (d : YamlDoc) : YamlDoc :=
  parameters.foldl backfillStep d

/-- The document on disk after a load: loaded (or created) and then
backfilled. -/
def written_file (file : Option YamlDoc) : YamlDoc := update_yaml_file (load_yaml file)

/-- Python whitespace for `str.strip`. -/
def isPySpace (c : Char) : Bool := c.toNat = 32 || (9 ≤ c.toNat && c.toNat ≤ 13)

/-- `str.strip()` on a character list. -/
def pyStripChars (cs : List Char) : List Char :=
  ((cs.dropWhile isPySpace).reverse.dropWhile isPySpace).reverse

/-- `str.strip()`. -/
def pyStrip (s : String) : String := String.mk (pyStripChars s.data)

/-- `str.split(",")` on a character list, keeping empty pieces. -/
def splitCommaChars : List Char → List (List Char)
  | [] => [[]]
  | c :: cs =>
    if c = ',' then [] :: splitCommaChars cs
    else
      match splitCommaChars cs with
      | [] => [[c]]
      | g :: gs => (c :: g) :: gs

/-- `[x.strip() for x in s.split(",") if x.strip()]`. -/
def splitCommaStrip (s : String) : List String :=
  ((splitCommaChars s.data).map (fun g => String.mk (pyStripChars g))).filter (fun x => x ≠ "")

/-- Embedding of `_parse_addon_list`: None becomes the empty list,
lists are flattened with comma splitting and whitespace stripping,
strings are comma split, anything else becomes the empty list. -/
def parse_addon_list (raw : PyVal) : List String :=
  match raw with
  | .vnone => []
  | .vlist l => l.foldl (fun acc item => acc ++ splitCommaStrip item) []
  | .vstr s => splitCommaStrip s
  | _ => []

/-- Digits of a decimal literal accumulated into a number; fails on a
non-digit and on the empty digit string. -/
def digitsToNatGo : List Char → Nat → Option Nat
  | [], acc => some acc
  | c :: cs, acc => if c.isDigit then digitsToNatGo cs (10 * acc + (c.toNat - 48)) else none

/-- Decimal digit string to number. -/
def digitsToNat : List Char → Option Nat
  | [] => none
  | cs => digitsToNatGo cs 0

/-- Python `int(string)`: strip whitespace, optional sign, decimal
digits. -/
def parsePyInt (s : String) : Option Int :=
  match pyStripChars s.data with
  | [] => none
  | c :: rest =>
    if c = '-' then (digitsToNat rest).map (fun n => -(n : Int))
    else if c = '+' then (digitsToNat rest).map (fun n => (n : Int))
    else (digitsToNat (c :: rest)).map (fun n => (n : Int))

/-- Python `str(value)` for the values the loader can see; lists are
rendered in Python list notation. -/
def pyStrOf (v : PyVal) : String :=
  match v with
  | .vstr s => s
  | .vint n => toString n
  | .vpath s => s
  | .vnone => "None"
  | .vlist l => "[" ++ String.intercalate ", " (l.map (fun s => sglq ++ s ++ sglq)) ++ "]"

/-- The invalid-value error; the source message also embeds the
settings file path and the Python type names, which the claims never
inspect. -/
def invalidValueMsg (pname : String) : String :=
  "Invalid value for " ++ sglq ++ pname ++ sglq

/-- The port range error message. -/
def portRangeMsg (n : Int) : String :=
  "Port must be between 1 and 65535, got " ++ toString n

/-- Embedding of `_validate_value`: None passes through (empty list
for list parameters), paths accept strings and paths, integers are
converted with the port range check, strings are stringified, and the
addon list is parsed and resolved through `validate_addon_names`. -/
def validate_value (p : Parameter) (v : PyVal) : Except String PyVal :=
  match v with
  | .vnone => if p.ptype = .tlist then .ok (.vlist []) else .ok .vnone
  | _ =>
    match p.ptype with
    | .tpath =>
      match v with
      | .vstr s => .ok (.vpath s)
      | .vpath s => .ok (.vpath s)
      | _ => .error (invalidValueMsg p.name)
    | .tint =>
      match v with
      | .vint n =>
        if p.name = "port" ∧ ¬ (1 ≤ n ∧ n ≤ 65535) then .error (portRangeMsg n)
        else .ok (.vint n)
      | .vstr s =>
        match parsePyInt s with
        | some n =>
          if p.name = "port" ∧ ¬ (1 ≤ n ∧ n ≤ 65535) then .error (portRangeMsg n)
          else .ok (.vint n)
        | none => .error (invalidValueMsg p.name)
      | _ => .error (invalidValueMsg p.name)
    | .tstr => .ok (.vstr (pyStrOf v))
    | .tlist =>
      if p.name = "disabled_addons" then
        match validate_addon_names (parse_addon_list v) with
        | .ok names => .ok (.vlist names)
        | .error e => .error e
      else .ok (.vlist (parse_addon_list v))

/-- Runtime overrides as supplied on the command line: none means the
flag was not given.  The port flag is parsed to an integer and the
certificate directory to a path by the argument parsing layer. -/
structure RuntimeArgs where
  host : Option String
  port : Option Int
  certdir : Option String
  disable_addon : Option (List String)
deriving DecidableEq

/-- The parsed host value (argument default "127.0.0.1"). -/
def cliHost (a : RuntimeArgs) : PyVal := .vstr (a.host.getD "127.0.0.1")

/-- The parsed port value (argument default 8080). -/
def cliPort (a : RuntimeArgs) : PyVal := .vint (a.port.getD 8080)

/-- The parsed certificate directory (argument default the home
mitmproxy directory). -/
def cliCertdir (a : RuntimeArgs) : PyVal := .vpath (a.certdir.getD defaultCertdir)

/-- The collected disable-addon values; the argument default is None
so that absence is detectable. -/
def cliDisabled (a : RuntimeArgs) : PyVal :=
  match a.disable_addon with
  | none => .vnone
  | some l => .vlist l

/-- Did the runtime layer leave the parameter at its default?  List
parameters use the None sentinel, scalar parameters equality with the
compiled-in default. -/
def is_cli_default (p : Parameter) (cv : PyVal) : Bool :=
  if p.ptype = .tlist then cv == .vnone else cv == p.default

/-- The raw value selected for a parameter: the YAML value when the
runtime layer is at its default and the key is present, else the
runtime value. -/
def selectedRaw (p : Parameter) (ymap : YamlDoc) (cv : PyVal) : PyVal :=
  if is_cli_default p cv && docHasKey ymap p.name then (docLookup ymap p.name).getD .vnone
  else cv

/-- Selection followed by validation, as done per parameter in
`get_config`. -/
def resolveField (p : Parameter) (ymap : YamlDoc) (cv : PyVal) : Except String PyVal :=
  validate_value p (selectedRaw p ymap cv)

/-- The resolved configuration namespace. -/
structure Config where
  host : PyVal
  port : PyVal
  certdir : PyVal
  disabled_addons : PyVal
deriving DecidableEq

/-- Embedding of `get_config`: load the settings file, backfill it,
then per parameter pick the YAML value when the runtime layer is at
its default and the key is present, else the runtime value, validating
each pick and failing on the first invalid one. -/
def get_config (file : Option YamlDoc) (args : RuntimeArgs) : Except String Config :=
  let yaml_config := written_file file
  match resolveField pHost yaml_config (cliHost args) with
  | .error e => .error e
  | .ok hv =>
    match resolveField pPort yaml_config (cliPort args) with
    | .error e => .error e
    | .ok pv =>
      match resolveField pCertdir yaml_config (cliCertdir args) with
      | .error e => .error e
      | .ok cv =>
        match resolveField pDisabled yaml_config (cliDisabled args) with
        | .error e => .error e
        | .ok dv => .ok ⟨hv, pv, cv, dv⟩

/-! Embedding of the pipeline runner addon selection (`proxy.py`). -/

/-- The available addons of `ProxyServer.start`, keyed by canonical
class name, in source (insertion) order. -/
def available_addon_names : List String :=
  ["CSPRemoverAddon", "COEPRemoverAddon", "COOPRemoverAddon", "CORPInserterAddon",
   "CORSInserterForWebhooksAddon", "CORSPreflightForWebhooksAddon"]

/-- `ProxyServer.__init__`: `disabled_addons or []`. -/
def proxyDisabledInit (disabled_addons : Option (List String)) : List String :=
  disabled_addons.getD []

/-- The addons loaded by `ProxyServer.start`: those whose name is not
in the disabled list, in registry order. -/
def enabled_addon_names (disabled : List String) : List String :=
  available_addon_names.filter (fun n => !(disabled.contains n))

/-! Lemmas about the settings document and the backfill loop. -/

theorem docHasKey_append_kv (d : YamlDoc) (k : String) (v : PyVal) :
    docHasKey (d ++ [.kv k v]) k = true := by
  simp [docHasKey, List.any_append]

theorem docHasKey_append_kv_ne (d : YamlDoc) (k k2 : String) (v : PyVal) (h : k2 ≠ k) :
    docHasKey (d ++ [.kv k2 v]) k = docHasKey d k := by
  simp [docHasKey, List.any_append, h]

theorem backfillStep_hasKey_self (d : YamlDoc) (p : Parameter) :
    docHasKey (backfillStep d p) p.name = true := by
  by_cases h : docHasKey d p.name = true
  · simp only [backfillStep, if_pos h]
    exact h
  · simp only [backfillStep, if_neg h]
    exact docHasKey_append_kv d p.name _

theorem docHasKey_append_left (d l : YamlDoc) (k : String) (h : docHasKey d k = true) :
    docHasKey (d ++ l) k = true := by
  simp only [docHasKey, List.any_append] at h ⊢
  simp only [h, Bool.true_or]

theorem backfillStep_hasKey_mono (d : YamlDoc) (p : Parameter) (k : String)
    (h : docHasKey d k = true) : docHasKey (backfillStep d p) k = true := by
  by_cases h2 : docHasKey d p.name = true
  · simpa [backfillStep, h2] using h
  · simp only [backfillStep, if_neg h2]
    exact docHasKey_append_left d _ k h

theorem backfillStep_hasKey_ne (d : YamlDoc) (p : Parameter) (k : String) (h : p.name ≠ k) :
    docHasKey (backfillStep d p) k = docHasKey d k := by
  by_cases h2 : docHasKey d p.name = true
  · simp [backfillStep, h2]
  · simp only [backfillStep, if_neg h2]
    exact docHasKey_append_kv_ne d k p.name _ h

theorem backfillStep_mem (d : YamlDoc) (p : Parameter) (it : YamlItem) (h : it ∈ d) :
    it ∈ backfillStep d p := by
  by_cases h2 : docHasKey d p.name = true
  · simpa [backfillStep, h2] using h
  · simp only [backfillStep, if_neg h2]
    exact List.mem_append_left _ h

theorem docLookup_append_of_some (d : YamlDoc) (l : YamlDoc) (k : String) (v : PyVal)
    (h : docLookup d k = some v) : docLookup (d ++ l) k = some v := by
  induction d with
  | nil => cases h
  | cons it rest ih =>
    cases it with
    | comment t =>
      simp only [List.cons_append, docLookup] at h ⊢
      exact ih h
    | kv key val =>
      by_cases hk : key = k
      · simp only [List.cons_append, docLookup, if_pos hk] at h ⊢
        exact h
      · simp only [List.cons_append, docLookup, if_neg hk] at h ⊢
        exact ih h

theorem docLookup_append_self (d : YamlDoc) (k : String) (v : PyVal)
    (h : docHasKey d k = false) : docLookup (d ++ [.kv k v]) k = some v := by
  induction d with
  | nil => simp [docLookup]
  | cons it rest ih =>
    cases it with
    | comment t =>
      simp only [List.cons_append, docLookup]
      exact ih h
    | kv key val =>
      simp only [docHasKey, List.any_cons, Bool.or_eq_false_iff] at h
      have hk : key ≠ k := by simpa using h.1
      simp only [List.cons_append, docLookup, if_neg hk]
      exact ih h.2

theorem backfillStep_lookup_some (d : YamlDoc) (p : Parameter) (k : String) (v : PyVal)
    (h : docLookup d k = some v) : docLookup (backfillStep d p) k = some v := by
  by_cases h2 : docHasKey d p.name = true
  · simpa [backfillStep, h2] using h
  · simp only [backfillStep, if_neg h2]
    exact docLookup_append_of_some d _ k v h

theorem foldl_backfill_hasKey_mono :
    ∀ (ps : List Parameter) (d : YamlDoc) (k : String),
      docHasKey d k = true → docHasKey (ps.foldl backfillStep d) k = true := by
  intro ps
  induction ps with
  | nil => intro d k h; exact h
  | cons q rest ih =>
    intro d k h
    exact ih _ _ (backfillStep_hasKey_mono d q k h)

theorem foldl_backfill_mem :
    ∀ (ps : List Parameter) (d : YamlDoc) (it : YamlItem),
      it ∈ d → it ∈ ps.foldl backfillStep d := by
  intro ps
  induction ps with
  | nil => intro d it h; exact h
  | cons q rest ih =>
    intro d it h
    exact ih _ _ (backfillStep_mem d q it h)

theorem foldl_backfill_lookup_some :
    ∀ (ps : List Parameter) (d : YamlDoc) (k : String) (v : PyVal),
      docLookup d k = some v → docLookup (ps.foldl backfillStep d) k = some v := by
  intro ps
  induction ps with
  | nil => intro d k v h; exact h
  | cons q rest ih =>
    intro d k v h
    exact ih _ _ _ (backfillStep_lookup_some d q k v h)

theorem foldl_backfill_hasKey_of_mem :
    ∀ (ps : List Parameter) (d : YamlDoc) (p : Parameter),
      p ∈ ps → docHasKey (ps.foldl backfillStep d) p.name = true := by
  intro ps
  induction ps with
  | nil => intro d p hp; cases hp
  | cons q rest ih =>
    intro d p hp
    rcases List.mem_cons.mp hp with rfl | hm
    · exact foldl_backfill_hasKey_mono rest _ _ (backfillStep_hasKey_self d p)
    · exact ih _ p hm

theorem foldl_backfill_lookup_absent :
    ∀ (ps : List Parameter) (d : YamlDoc) (p : Parameter),
      p ∈ ps → docHasKey d p.name = false → (ps.map Parameter.name).Nodup →
      docLookup (ps.foldl backfillStep d) p.name = some (yamlDefaultOf p) := by
  intro ps
  induction ps with
  | nil => intro d p hp _ _; cases hp
  | cons q rest ih =>
    intro d p hp hk hnodup
    rcases List.mem_cons.mp hp with rfl | hm
    · have e1 : backfillStep d p = d ++ [.kv p.name (yamlDefaultOf p)] := by
        simp [backfillStep, hk]
      rw [List.foldl_cons, e1]
      exact foldl_backfill_lookup_some rest _ _ _ (docLookup_append_self d p.name _ hk)
    · have hqp : q.name ≠ p.name := by
        simp only [List.map_cons, List.nodup_cons] at hnodup
        intro e
        exact hnodup.1 (e ▸ List.mem_map_of_mem Parameter.name hm)
      have hk2 : docHasKey (backfillStep d q) p.name = false := by
        rw [backfillStep_hasKey_ne d q p.name hqp]
        exact hk
      rw [List.foldl_cons]
      exact ih _ p hm hk2
        (by simp only [List.map_cons, List.nodup_cons] at hnodup; exact hnodup.2)

/-- C6: after every load the written settings document contains every
schema key; comment lines of the original file are still present;
existing bindings keep their values; keys missing from the file are
backfilled with their serialised defaults; and the concrete round trip
of a file containing only host 10.0.0.1 and a comment yields the
comment, the host binding, port 8080, the default certificate
directory and the empty disabled list. -/
theorem settings_backfill (file : YamlDoc) :
    (∀ p ∈ parameters, docHasKey (written_file (some file)) p.name = true) ∧
    (∀ t, YamlItem.comment t ∈ file → YamlItem.comment t ∈ written_file (some file)) ∧
    (∀ k v, docLookup file k = some v → docLookup (written_file (some file)) k = some v) ∧
    (∀ p ∈ parameters, docHasKey file p.name = false →
      docLookup (written_file (some file)) p.name = some (yamlDefaultOf p)) ∧
    written_file (some [.comment "# my settings", .kv "host" (.vstr "10.0.0.1")]) =
      [.comment "# my settings", .kv "host" (.vstr "10.0.0.1"), .kv "port" (.vint 8080),
       .kv "certdir" (.vstr defaultCertdir), .kv "disabled_addons" (.vlist [])] := by
  refine ⟨?_, ?_, ?_, ?_, by decide⟩
  · intro p hp
    exact foldl_backfill_hasKey_of_mem parameters file p hp
  · intro t ht
    exact foldl_backfill_mem parameters file _ ht
  · intro k v h
    exact foldl_backfill_lookup_some parameters file k v h
  · intro p hp hk
    exact foldl_backfill_lookup_absent parameters file p hp hk (by decide)

/-- A concrete settings file with a comment and only a host key. -/
def c6Doc : YamlDoc := [.comment "# keep me", .kv "host" (.vstr "10.0.0.1")]

/-- Witness for `settings_backfill` at a concrete file. -/
theorem settings_backfill_witness :
    YamlItem.comment "# keep me" ∈ written_file (some c6Doc) ∧
    docLookup (written_file (some c6Doc)) "host" = some (.vstr "10.0.0.1") ∧
    docLookup (written_file (some c6Doc)) "port" = some (yamlDefaultOf pPort) :=
  ⟨(settings_backfill c6Doc).2.1 "# keep me" (by decide),
   (settings_backfill c6Doc).2.2.1 "host" (.vstr "10.0.0.1") (by decide),
   (settings_backfill c6Doc).2.2.2.1 pPort (by decide) (by decide)⟩

/-! Lemmas about the per-field selection of `get_config`. -/

theorem selectedRaw_override (p : Parameter) (ymap : YamlDoc) (cv : PyVal)
    (hdef : is_cli_default p cv = false) : selectedRaw p ymap cv = cv := by
  simp [selectedRaw, hdef]

theorem selectedRaw_default_present (file : YamlDoc) (p : Parameter) (cv : PyVal)
    (hp : p ∈ parameters) (hdef : is_cli_default p cv = true) (v : PyVal)
    (hv : docLookup file p.name = some v) :
    selectedRaw p (written_file (some file)) cv = v := by
  have hk : docHasKey (written_file (some file)) p.name = true :=
    foldl_backfill_hasKey_of_mem parameters file p hp
  have hl : docLookup (written_file (some file)) p.name = some v :=
    foldl_backfill_lookup_some parameters file p.name v hv
  simp [selectedRaw, hdef, hk, hl]

theorem selectedRaw_default_absent (file : YamlDoc) (p : Parameter) (cv : PyVal)
    (hp : p ∈ parameters) (hdef : is_cli_default p cv = true)
    (hk0 : docHasKey file p.name = false) :
    selectedRaw p (written_file (some file)) cv = yamlDefaultOf p := by
  have hk : docHasKey (written_file (some file)) p.name = true :=
    foldl_backfill_hasKey_of_mem parameters file p hp
  have hl : docLookup (written_file (some file)) p.name = some (yamlDefaultOf p) :=
    foldl_backfill_lookup_absent parameters file p hp hk0 (by decide)
  simp [selectedRaw, hdef, hk, hl]

/-- C3 (amended): per configuration field, the selected raw value is
the runtime override whenever one was supplied that is detectable as
an override (any supplied list for the collection field; a value
different from the compiled-in default for the scalar fields — a
scalar override equal to the default is treated as absent), else the
settings file value when the key is present, else the built-in
default; and the concrete scenario: settings file with port 7070 and
runtime override of only the host resolves to the overridden host,
port 7070 and the default certificate directory. -/
theorem config_precedence (file : YamlDoc) (args : RuntimeArgs) :
    (∀ h, args.host = some h → h ≠ "127.0.0.1" →
      selectedRaw pHost (written_file (some file)) (cliHost args) = .vstr h) ∧
    ((args.host = none ∨ args.host = some "127.0.0.1") →
      (∀ v, docLookup file "host" = some v →
        selectedRaw pHost (written_file (some file)) (cliHost args) = v) ∧
      (docHasKey file "host" = false →
        selectedRaw pHost (written_file (some file)) (cliHost args) = .vstr "127.0.0.1")) ∧
    (∀ n, args.port = some n → n ≠ 8080 →
      selectedRaw pPort (written_file (some file)) (cliPort args) = .vint n) ∧
    ((args.port = none ∨ args.port = some 8080) →
      (∀ v, docLookup file "port" = some v →
        selectedRaw pPort (written_file (some file)) (cliPort args) = v) ∧
      (docHasKey file "port" = false →
        selectedRaw pPort (written_file (some file)) (cliPort args) = .vint 8080)) ∧
    (∀ c, args.certdir = some c → c ≠ defaultCertdir →
      selectedRaw pCertdir (written_file (some file)) (cliCertdir args) = .vpath c) ∧
    ((args.certdir = none ∨ args.certdir = some defaultCertdir) →
      (∀ v, docLookup file "certdir" = some v →
        selectedRaw pCertdir (written_file (some file)) (cliCertdir args) = v) ∧
      (docHasKey file "certdir" = false →
        selectedRaw pCertdir (written_file (some file)) (cliCertdir args) =
          .vstr defaultCertdir)) ∧
    (∀ l, args.disable_addon = some l →
      selectedRaw pDisabled (written_file (some file)) (cliDisabled args) = .vlist l) ∧
    (args.disable_addon = none →
      (∀ v, docLookup file "disabled_addons" = some v →
        selectedRaw pDisabled (written_file (some file)) (cliDisabled args) = v) ∧
      (docHasKey file "disabled_addons" = false →
        selectedRaw pDisabled (written_file (some file)) (cliDisabled args) = .vlist [])) ∧
    get_config (some [.kv "port" (.vint 7070)]) ⟨some "192.168.1.1", none, none, none⟩ =
      .ok ⟨.vstr "192.168.1.1", .vint 7070, .vpath defaultCertdir, .vlist []⟩ := by
  refine ⟨?_, ?_, ?_, ?_, ?_, ?_, ?_, ?_, by decide⟩
  · intro h hh hne
    have hc : cliHost args = .vstr h := by rw [cliHost, hh]; rfl
    rw [hc]
    exact selectedRaw_override pHost _ _ (by simp [is_cli_default, pHost, hne])
  · intro hd
    have hc : cliHost args = .vstr "127.0.0.1" := by
      rcases hd with h0 | h0 <;> rw [cliHost, h0] <;> rfl
    rw [hc]
    exact ⟨fun v hv => selectedRaw_default_present file pHost _ (by decide) (by decide) v hv,
      fun hk0 => selectedRaw_default_absent file pHost _ (by decide) (by decide) hk0⟩
  · intro n hn hne
    have hc : cliPort args = .vint n := by rw [cliPort, hn]; rfl
    rw [hc]
    exact selectedRaw_override pPort _ _ (by simp [is_cli_default, pPort, hne])
  · intro hd
    have hc : cliPort args = .vint 8080 := by
      rcases hd with h0 | h0 <;> rw [cliPort, h0] <;> rfl
    rw [hc]
    exact ⟨fun v hv => selectedRaw_default_present file pPort _ (by decide) (by decide) v hv,
      fun hk0 => selectedRaw_default_absent file pPort _ (by decide) (by decide) hk0⟩
  · intro c hc0 hne
    have hc : cliCertdir args = .vpath c := by rw [cliCertdir, hc0]; rfl
    rw [hc]
    exact selectedRaw_override pCertdir _ _ (by simp [is_cli_default, pCertdir, hne])
  · intro hd
    have hc : cliCertdir args = .vpath defaultCertdir := by
      rcases hd with h0 | h0 <;> rw [cliCertdir, h0] <;> rfl
    rw [hc]
    exact ⟨fun v hv => selectedRaw_default_present file pCertdir _ (by decide) (by decide) v hv,
      fun hk0 => selectedRaw_default_absent file pCertdir _ (by decide) (by decide) hk0⟩
  · intro l hl
    have hc : cliDisabled args = .vlist l := by rw [cliDisabled, hl]
    rw [hc]
    exact selectedRaw_override pDisabled _ _ (by simp [is_cli_default, pDisabled])
  · intro hd
    have hc : cliDisabled args = .vnone := by rw [cliDisabled, hd]
    rw [hc]
    exact ⟨fun v hv => selectedRaw_default_present file pDisabled _ (by decide) (by decide) v hv,
      fun hk0 => selectedRaw_default_absent file pDisabled _ (by decide) (by decide) hk0⟩

/-- The settings file of the precedence scenario: only port 7070. -/
def c3File : YamlDoc := [.kv "port" (.vint 7070)]

/-- Runtime overrides of the precedence scenario: only the host. -/
def c3Args : RuntimeArgs := ⟨some "192.168.1.1", none, none, none⟩

/-- Witness for `config_precedence` at the concrete scenario. -/
theorem config_precedence_witness :
    selectedRaw pHost (written_file (some c3File)) (cliHost c3Args) = .vstr "192.168.1.1" ∧
    selectedRaw pPort (written_file (some c3File)) (cliPort c3Args) = .vint 7070 ∧
    selectedRaw pCertdir (written_file (some c3File)) (cliCertdir c3Args) =
      .vstr defaultCertdir :=
  ⟨(config_precedence c3File c3Args).1 "192.168.1.1" rfl (by decide),
   ((config_precedence c3File c3Args).2.2.2.1 (Or.inl rfl)).1 (.vint 7070) rfl,
   ((config_precedence c3File c3Args).2.2.2.2.2.1 (Or.inl rfl)).2 (by decide)⟩

/-- C3 counterexample: with the settings file assigning port 7070, a
run explicitly passing the default port 8080 resolves to 7070, not to
the explicitly supplied override. -/
theorem config_precedence_counterexample :
    get_config (some c3File) ⟨none, some 8080, none, none⟩ =
      .ok ⟨.vstr "127.0.0.1", .vint 7070, .vpath defaultCertdir, .vlist []⟩ ∧
    PyVal.vint 7070 ≠ PyVal.vint 8080 := by
  exact ⟨by decide, by decide⟩

/-- C9: supplying a scalar field at exactly its compiled-in default is
indistinguishable from not supplying it (equality-based default
detection for host, port and certificate directory), while the
collection field uses the None sentinel, so even a supplied empty
disable list is taken from the runtime layer; in the concrete
scenario, explicitly passing port 8080 against a settings file with
port 7070 resolves to 7070 exactly as passing nothing. -/
theorem scalar_default_detection (file : YamlDoc) (args : RuntimeArgs) :
    get_config (some file) { args with port := some 8080 } =
      get_config (some file) { args with port := none } ∧
    get_config (some file) { args with host := some "127.0.0.1" } =
      get_config (some file) { args with host := none } ∧
    get_config (some file) { args with certdir := some defaultCertdir } =
      get_config (some file) { args with certdir := none } ∧
    selectedRaw pDisabled (written_file (some file))
      (cliDisabled { args with disable_addon := some [] }) = .vlist [] ∧
    get_config (some [.kv "port" (.vint 7070)]) ⟨none, some 8080, none, none⟩ =
      get_config (some [.kv "port" (.vint 7070)]) ⟨none, none, none, none⟩ ∧
    get_config (some [.kv "port" (.vint 7070)]) ⟨none, some 8080, none, none⟩ =
      .ok ⟨.vstr "127.0.0.1", .vint 7070, .vpath defaultCertdir, .vlist []⟩ := by
  refine ⟨rfl, rfl, rfl, ?_, by decide, by decide⟩
  have hc : cliDisabled { args with disable_addon := some [] } = .vlist [] := rfl
  rw [hc]
  exact selectedRaw_override pDisabled _ _ (by decide)

/-- Witness for `scalar_default_detection` at a concrete file. -/
theorem scalar_default_detection_witness :
    get_config (some c3File) ⟨none, some 8080, none, none⟩ =
      get_config (some c3File) ⟨none, none, none, none⟩ :=
  (scalar_default_detection c3File ⟨none, none, none, none⟩).1

/-- C10: the enabled addon sequence consists of exactly the built-in
addons whose canonical class name is not in the disabled list, in
registry order; membership is by exact, case-sensitive string
equality, so a short alias or a case variant disables nothing; the
constructor turns an absent list into the empty list. -/
theorem enabled_rules_selection :
    (∀ dl n, n ∈ enabled_addon_names dl ↔ (n ∈ available_addon_names ∧ n ∉ dl)) ∧
    (∀ dl, (enabled_addon_names dl).Sublist available_addon_names) ∧
    enabled_addon_names ["CSP"] = available_addon_names ∧
    enabled_addon_names ["cspremoveraddon"] = available_addon_names ∧
    enabled_addon_names ["CSPRemoverAddon"] =
      ["COEPRemoverAddon", "COOPRemoverAddon", "CORPInserterAddon",
       "CORSInserterForWebhooksAddon", "CORSPreflightForWebhooksAddon"] ∧
    proxyDisabledInit none = [] := by
  refine ⟨?_, ?_, by decide, by decide, by decide, rfl⟩
  · intro dl n
    simp [enabled_addon_names, List.mem_filter]
  · intro dl
    exact List.filter_sublist _

/-- Witness for `enabled_rules_selection` at a concrete disabled
list. -/
theorem enabled_rules_selection_witness :
    "CSPRemoverAddon" ∈ enabled_addon_names ["COEPRemoverAddon"] ↔
      ("CSPRemoverAddon" ∈ available_addon_names ∧
        "CSPRemoverAddon" ∉ ["COEPRemoverAddon"]) :=
  enabled_rules_selection.1 ["COEPRemoverAddon"] "CSPRemoverAddon"

/-- A concrete exchange carrying a CSP header and an unrelated
header. -/
def c7Flow : HTTPFlow :=
  { method := "GET",
    response := some { status_code := 200, reason := "OK", content := [],
                       headers := [("Content-Security-Policy", "default-src"),
                                   ("X-Other", "v")] } }

/-- Witness for `removal_rules_idempotent` at a concrete exchange. -/
theorem removal_rules_idempotent_witness :
    CSPRemoverAddon.response (CSPRemoverAddon.response c7Flow) =
      CSPRemoverAddon.response c7Flow ∧
    COEPRemoverAddon.response (COEPRemoverAddon.response c7Flow) =
      COEPRemoverAddon.response c7Flow ∧
    COOPRemoverAddon.response (COOPRemoverAddon.response c7Flow) =
      COOPRemoverAddon.response c7Flow :=
  removal_rules_idempotent c7Flow
